import Mathlib

/-!
Verification of the PhoneGPT MentraOS bridge server (src/backend/main.py).

The server keeps two pieces of module-level mutable state:

* `event_queue = deque(maxlen=1000)` — a bounded FIFO of event records,
* `session_states : Dict[str, SessionData]` — the session registry.

We embed the event records, the queue discipline, the session registry and the
request handlers `add_event`, `get_events`, `display_text` and
`handle_transcription` as pure Lean functions; mutable state is passed
explicitly and external side effects (displaying text on the glasses) are
returned as a list of `DisplayCall` values.  Python `datetime.utcnow()` is
modelled by an abstract clock parameter `now : Nat` threaded into the handlers.
-/

namespace PhoneGPT

/-- The per-session lifecycle state, `GlassesState` in main.py. -/
inductive GlassesState where
  | listening
  | processing
  | displaying
deriving DecidableEq, Repr

/-- Payloads of the event records stored in the queue.  In the source each
event carries an open `Dict[str, Any]`; we give the shapes actually
constructed in main.py, with `other` as the catch-all. -/
inductive EventData where
  | voiceInput (transcript : String) (session_id : String) (is_final : Bool)
  | displayRequest (text : String) (sessions : List String) (duration : Int)
  | appActivated (session_id : String) (user_id : String)
  | appDeactivated (session_id : String)
  | other (raw : List (String × String))
deriving DecidableEq, Repr

/-- One record of the event queue, as built by `add_event` in main.py with
keys "type", "data", "timestamp" and "session_id".  The timestamp is the
abstract clock value at ingestion. -/
structure Event where
  type : String
  data : EventData
  timestamp : Nat
  session_id : Option String
deriving DecidableEq, Repr

/-- Per-session mutable state, `SessionData` in main.py (a pydantic model,
shown here with its default field values). -/
structure SessionData where
  state : GlassesState := GlassesState.listening
  current_transcript : String := ""
  last_response : String := ""
  event_history : List Event := []
deriving DecidableEq, Repr

instance : Inhabited SessionData := ⟨{}⟩

/-- The module-level mutable state of main.py: the session registry
(`session_states`, a Python dict, modelled as an insertion-ordered
association list with distinct keys) and the bounded event queue
(`event_queue = deque(maxlen=1000)`, oldest element first). -/
structure ServerState where
  session_states : List (String × SessionData)
  event_queue : List Event
deriving DecidableEq, Repr

/-- Appending to a `collections.deque` with `maxlen = C`: if the deque is
full the leftmost (oldest) element is discarded before the append. -/
def deque_append {α : Type} (C : Nat) (q : List α) (a : α) : List α :=
  if q.length < C then q ++ [a] else (q.drop (q.length + 1 - C)) ++ [a]

/-- In-place mutation of the session stored under key `sid` in the registry
(Python mutates the `SessionData` object held in the dict; the dict's key
order is unchanged). -/
def updateSession (l : List (String × SessionData)) (sid : String)
    (f : SessionData → SessionData) : List (String × SessionData) :=
  l.map (fun p => if p.1 = sid then (p.1, f p.2) else p)

/-- The event dictionary constructed at the top of `add_event`. -/
def mkEvent (event_type : String) (data : EventData) (now : Nat)
    (session_id : Option String) : Event :=
  { type := event_type, data := data, timestamp := now, session_id := session_id }

/-- Helper `add_event` from main.py: append the record to the global queue
(capacity 1000), and, when a `session_id` is given and present in the
registry, also append the record to that session's `event_history`. -/
def add_event (st : ServerState) (event_type : String) (data : EventData)
    (now : Nat) (session_id : Option String) : ServerState :=
  let event := mkEvent event_type data now session_id
  let q := deque_append 1000 st.event_queue event
  let sessions :=
    match session_id with
    | some sid =>
        if (st.session_states.lookup sid).isSome then
          updateSession st.session_states sid
            (fun s => { s with event_history := s.event_history ++ [event] })
        else st.session_states
    | none => st.session_states
  { session_states := sessions, event_queue := q }

/-- Normalisation of one endpoint of a Python list slice with step 1 over a
list of length `n`: a negative index counts from the end, and the result is
clamped into the range from `0` to `n`.  This mirrors CPython's
`PySlice_AdjustIndices`. -/
def pythonSliceIndex (n : Nat) (i : Int) : Nat :=
  if i < 0 then (max ((n : Int) + i) 0).toNat else (min i (n : Int)).toNat

/-- Python list slicing `l[start:stop]` with the implicit step 1. -/
def pythonSlice {α : Type} (l : List α) (start stop : Int) : List α :=
  let s := pythonSliceIndex l.length start
  let t := pythonSliceIndex l.length stop
  (l.drop s).take (t - s)

/-- Shape of the JSON body returned by `GET /events`. -/
structure EventsResponse where
  events : List Event
  count : Nat
  last_index : Int
deriving DecidableEq, Repr

/-- Handler of `GET /events` in main.py: take the slice
`list(event_queue)[since : since + limit]` and report the total count and
`last_index = min(since + len(new_events), len(events_list))`.  The query
parameters default to `since = 0` and `limit = 100`. -/
def get_events (event_queue : List Event) (since : Int := 0)
    (limit : Int := 100) : EventsResponse :=
  let events_list := event_queue
  let new_events := pythonSlice events_list since (since + limit)
  { events := new_events,
    count := events_list.length,
    last_index := min (since + (new_events.length : Int)) (events_list.length : Int) }

/-- An HTTPException raised by a handler: an HTTP status code and a detail
message. -/
structure HttpError where
  status_code : Nat
  detail : String
deriving DecidableEq, Repr

/-- One call to `display_on_glasses(session_id, text, duration_ms)` — the
external device-SDK side effect, recorded rather than performed. -/
structure DisplayCall where
  session_id : String
  text : String
  duration_ms : Int
deriving DecidableEq, Repr

/-- The JSON request body of `POST /display`; `request.get` supplies the
defaults (empty text, no target, duration 5000), so all fields are optional. -/
structure DisplayRequest where
  text : Option String := none
  session_id : Option String := none
  duration : Option Int := none
deriving DecidableEq, Repr

/-- The JSON body returned by a successful `POST /display`. -/
structure DisplayResponse where
  status : String
  sessions : List String
  text : String
  timestamp : Nat
deriving DecidableEq, Repr

/-- Python truthiness of the optional `session_id` string: `None` and the
empty string are falsy. -/
def truthyStr (s : Option String) : Bool :=
  match s with
  | none => false
  | some s => s ≠ ""

/-- Handler of `POST /display` (`display_text` in main.py).  Returns the
HTTP outcome, the server state after the call (module-level state survives a
raised HTTPException, so it is returned on every path) and the list of
device display calls made.  Mirrors main.py line by line: read the fields
with defaults; 400 if the text is falsy; display on the targeted session if
`session_id` is truthy and present, else broadcast to every session if
`session_id` is falsy and the registry is non-empty; 404 if nothing was
displayed; finally `add_event("display_request", ...)` and respond. -/
def display_text (st : ServerState) (request : DisplayRequest) (now : Nat) :
    Except HttpError DisplayResponse × ServerState × List DisplayCall :=
  let text := request.text.getD ""
  let duration := request.duration.getD 5000
  if text = "" then
    (Except.error ⟨400, "Text is required"⟩, st, [])
  else
    let target : Option String :=
      if truthyStr request.session_id then request.session_id else none
    match target with
    | some sid =>
        match st.session_states.lookup sid with
        | some _ =>
            let sessions1 := updateSession st.session_states sid
              (fun s => { s with last_response := text,
                                 state := GlassesState.displaying })
            let st1 : ServerState := { st with session_states := sessions1 }
            let st2 := add_event st1 "display_request"
              (EventData.displayRequest text [sid] duration) now none
            (Except.ok ⟨"displayed", [sid], text, now⟩, st2,
              [⟨sid, text, duration⟩])
        | none => (Except.error ⟨404, "No active sessions"⟩, st, [])
    | none =>
        if st.session_states.isEmpty then
          (Except.error ⟨404, "No active sessions"⟩, st, [])
        else
          let displayed := st.session_states.map (fun p => p.1)
          let sessions1 := st.session_states.map
            (fun p => (p.1, { p.2 with last_response := text,
                                       state := GlassesState.displaying }))
          let st1 : ServerState := { st with session_states := sessions1 }
          let st2 := add_event st1 "display_request"
            (EventData.displayRequest text displayed duration) now none
          (Except.ok ⟨"displayed", displayed, text, now⟩, st2,
            displayed.map (fun sid => ⟨sid, text, duration⟩))

/-- The truncated preview displayed while a final transcript is processed:
`f"🤔 Processing:\n\"TEXT...\""` with `TEXT = transcript_text[:50]`. -/
def processingPreview (transcript_text : String) : String :=
  "🤔 Processing:\n\"" ++ transcript_text.take 50 ++ "...\""

/-- Handler of voice transcriptions (`handle_transcription` in main.py).
Returns the new server state, the device display calls made, and the trace
of values assigned to `state.state` during the call, in order (the source
assigns `PROCESSING` before the display call and `LISTENING` after it).
Mirrors main.py: return untouched if the session is unknown; append
`" " + text` to the transcript buffer; return if not final; otherwise strip
the buffer, `add_event("voice_input", ...)` with the session id, go to
`PROCESSING`, display the truncated preview for 2000 ms, then clear the
buffer and return to `LISTENING`. -/
def handle_transcription (st : ServerState) (session_id : String)
    (text : String) (is_final : Bool) (now : Nat) :
    ServerState × List DisplayCall × List GlassesState :=
  match st.session_states.lookup session_id with
  | none => (st, [], [])
  | some state0 =>
      let buffered := state0.current_transcript ++ " " ++ text
      let sessionsBuf := updateSession st.session_states session_id
        (fun s => { s with current_transcript := buffered })
      let stBuf : ServerState := { st with session_states := sessionsBuf }
      if ¬ is_final then
        (stBuf, [], [])
      else
        let transcript_text := buffered.trim
        let st1 := add_event stBuf "voice_input"
          (EventData.voiceInput transcript_text session_id is_final) now
          (some session_id)
        let sessionsProc := updateSession st1.session_states session_id
          (fun s => { s with state := GlassesState.processing })
        let st2 : ServerState := { st1 with session_states := sessionsProc }
        let call : DisplayCall := ⟨session_id, processingPreview transcript_text, 2000⟩
        let sessionsDone := updateSession st2.session_states session_id
          (fun s => { s with current_transcript := "",
                             state := GlassesState.listening })
        let st3 : ServerState := { st2 with session_states := sessionsDone }
        (st3, [call], [GlassesState.processing, GlassesState.listening])

/-- Modelled from the spec: the `POST /sessions/SESSION_ID/heartbeat`
endpoint is described in the spec's HTTP surface table and §4.2
(`heartbeat(session_id)`: updates `last_activity`; reports "not found" if
the session does not exist), but no heartbeat route and no `last_activity`
field appear in src/backend/main.py — the spec says the repository holds two
near-identical server variants and only one is under src/.  We model the
missing state as a registry mapping session ids to their `last_activity`
timestamp. -/
abbrev HeartbeatRegistry : Type := List (String × Nat)

/-- Modelled from the spec: the heartbeat handler.  For an existing session
it sets `last_activity` to the current time and returns the body
`status: updated`; for an unknown session it fails with HTTP 404. -/
def heartbeat (registry : HeartbeatRegistry) (session_id : String) (now : Nat) :
    Except HttpError (String × HeartbeatRegistry) :=
  match (List.lookup session_id registry : Option Nat) with
  | some _ =>
      Except.ok ("updated",
        (registry.map (fun p => if p.1 = session_id then (p.1, now) else p) :
          List (String × Nat)))
  | none => Except.error ⟨404, "Session not found"⟩

/-- A recorded invocation of `add_event`, used to state properties of
arbitrary call sequences. -/
structure AddEventCall where
  event_type : String
  data : EventData
  now : Nat
  session_id : Option String
deriving DecidableEq, Repr

/-- The event record a given `add_event` call appends. -/
def AddEventCall.event (c : AddEventCall) : Event :=
  mkEvent c.event_type c.data c.now c.session_id

/-- Run a sequence of `add_event` calls against a server state. -/
def runAddEvents (st : ServerState) (calls : List AddEventCall) : ServerState :=
  calls.foldl (fun st c => add_event st c.event_type c.data c.now c.session_id) st

theorem length_deque_append {α : Type} (C : Nat) (hC : 0 < C) (q : List α) (a : α)
    (hq : q.length ≤ C) : (deque_append C q a).length ≤ C := by
  unfold deque_append
  split <;> simp <;> omega

theorem deque_append_not_full {α : Type} (C : Nat) (q : List α) (a : α)
    (h : q.length < C) : deque_append C q a = q ++ [a] := by
  unfold deque_append
  rw [if_pos h]

theorem deque_append_full {α : Type} (C : Nat) (q : List α) (a : α)
    (h : ¬ q.length < C) :
    deque_append C q a = q.drop (q.length + 1 - C) ++ [a] := by
  unfold deque_append
  rw [if_neg h]

theorem foldl_deque_append {α : Type} (C : Nat) (hC : 0 < C) (l : List α) :
    l.foldl (deque_append C) [] = l.drop (l.length - C) := by
  induction l using List.reverseRecOn with
  | nil => simp
  | append_singleton l a ih =>
      rw [List.foldl_append, List.foldl_cons, List.foldl_nil, ih]
      have hlen : (l ++ [a]).length = l.length + 1 := by simp
      rw [hlen]
      by_cases h : l.length < C
      · have h1 : l.length - C = 0 := by omega
        have h2 : l.length + 1 - C = 0 := by omega
        rw [deque_append_not_full C _ a (by simp [List.length_drop]; omega), h1, h2]
        simp
      · have hdl : (l.drop (l.length - C)).length = C := by
          simp [List.length_drop]; omega
        rw [deque_append_full C _ a (by rw [hdl]; omega), hdl]
        rw [List.drop_append_of_le_length (by omega), List.drop_drop]
        have harith : l.length - C + (C + 1 - C) = l.length + 1 - C := by omega
        rw [harith]

theorem event_queue_add_event (st : ServerState) (c : AddEventCall) :
    (add_event st c.event_type c.data c.now c.session_id).event_queue =
      deque_append 1000 st.event_queue c.event := rfl

theorem event_queue_runAddEvents (calls : List AddEventCall) (st : ServerState) :
    (runAddEvents st calls).event_queue =
      (calls.map AddEventCall.event).foldl (deque_append 1000) st.event_queue := by
  induction calls generalizing st with
  | nil => rfl
  | cons c t ih =>
      rw [runAddEvents, List.foldl_cons, List.map_cons, List.foldl_cons,
        ← event_queue_add_event st c]
      exact ih _

/-- C1. For every sequence of `add_event` calls starting from an empty queue,
the queue holds at most 1000 records and its content is exactly the
most-recently appended 1000 records (all of them when fewer than 1000 were
appended): the oldest record is evicted first. -/
theorem event_queue_bounded_fifo (calls : List AddEventCall) (st0 : ServerState)
    (h0 : st0.event_queue = []) :
    (runAddEvents st0 calls).event_queue.length ≤ 1000 ∧
    (runAddEvents st0 calls).event_queue =
      (calls.map AddEventCall.event).drop (calls.length - 1000) := by
  have hq : (runAddEvents st0 calls).event_queue =
      (calls.map AddEventCall.event).drop (calls.length - 1000) := by
    rw [event_queue_runAddEvents, h0,
      foldl_deque_append 1000 (by omega) (calls.map AddEventCall.event)]
    simp
  refine ⟨?_, hq⟩
  rw [hq]
  simp [List.length_drop]
  omega

/-- Witness for C1 at a concrete input: a single call retains its record. -/
theorem event_queue_bounded_fifo_witness :
    (runAddEvents ⟨[], []⟩ [⟨"test", EventData.other [], 0, none⟩]).event_queue.length ≤ 1000 ∧
    (runAddEvents ⟨[], []⟩ [⟨"test", EventData.other [], 0, none⟩]).event_queue =
      ([⟨"test", EventData.other [], 0, none⟩] : List AddEventCall).map AddEventCall.event :=
  event_queue_bounded_fifo [⟨"test", EventData.other [], 0, none⟩] ⟨[], []⟩ rfl

theorem pythonSlice_nonneg {α : Type} (l : List α) (a b : Int)
    (ha : 0 ≤ a) (hab : a ≤ b) :
    pythonSlice l a b = (l.drop a.toNat).take (b - a).toNat := by
  unfold pythonSlice pythonSliceIndex
  rw [if_neg (by omega), if_neg (by omega)]
  by_cases hle : a ≤ (l.length : Int)
  · have hs : (min a (l.length : Int)).toNat = a.toNat := by omega
    rw [hs, List.take_eq_take]
    simp [List.length_drop]
    omega
  · have hs : (min a (l.length : Int)).toNat = l.length := by omega
    have ht : (min b (l.length : Int)).toNat = l.length := by omega
    rw [hs, ht]
    show List.take (l.length - l.length) (List.drop l.length l) =
      List.take (b - a).toNat (List.drop a.toNat l)
    rw [Nat.sub_self, List.take_zero, List.drop_eq_nil_of_le (by omega),
      List.take_nil]

theorem pythonSliceIndex_le {n : Nat} {i : Int} : pythonSliceIndex n i ≤ n := by
  unfold pythonSliceIndex
  split <;> omega

theorem pythonSliceIndex_window_sub_le {n : Nat} {a m : Int} (hm : 0 ≤ m) :
    pythonSliceIndex n (a + m) - pythonSliceIndex n a ≤ m.toNat := by
  unfold pythonSliceIndex
  split <;> split <;> omega

theorem length_pythonSlice (α : Type) (l : List α) (a b : Int) :
    (pythonSlice l a b).length =
      min (pythonSliceIndex l.length b - pythonSliceIndex l.length a)
        (l.length - pythonSliceIndex l.length a) := by
  show ((l.drop (pythonSliceIndex l.length a)).take
      (pythonSliceIndex l.length b - pythonSliceIndex l.length a)).length = _
  rw [List.length_take, List.length_drop]

theorem length_pythonSlice_le {α : Type} (l : List α) (a b : Int) :
    (pythonSlice l a b).length ≤ l.length := by
  rw [length_pythonSlice]
  exact le_trans (Nat.min_le_right _ _) (Nat.sub_le _ _)

theorem length_pythonSlice_window_le {α : Type} (l : List α) (a m : Int)
    (hm : 0 ≤ m) : (pythonSlice l a (a + m)).length ≤ m.toNat := by
  rw [length_pythonSlice]
  exact le_trans (Nat.min_le_left _ _) (pythonSliceIndex_window_sub_le hm)

theorem get_events_events_def (q : List Event) (since limit : Int) :
    (get_events q since limit).events = pythonSlice q since (since + limit) := rfl

/-- C2. For documented inputs (`since ≥ 0`, `limit ≥ 0`), `GET /events`
returns the queue entries at array positions `since` .. `since + limit - 1`
in insertion order (hence at most `limit` records), reports `count` equal to
the queue size and `last_index = min(since + len(events), count)`, and
returns no events when `since` is at least the queue size. -/
theorem get_events_window (q : List Event) (since limit : Int)
    (h1 : 0 ≤ since) (h2 : 0 ≤ limit) :
    (get_events q since limit).events = (q.drop since.toNat).take limit.toNat ∧
    (get_events q since limit).events.length ≤ limit.toNat ∧
    (get_events q since limit).count = q.length ∧
    (get_events q since limit).last_index =
      min (since + ((get_events q since limit).events.length : Int))
        (q.length : Int) ∧
    ((q.length : Int) ≤ since → (get_events q since limit).events = []) := by
  have hev : (get_events q since limit).events =
      (q.drop since.toNat).take limit.toNat := by
    show pythonSlice q since (since + limit) = _
    rw [pythonSlice_nonneg q since (since + limit) h1 (by omega)]
    congr 1
    omega
  refine ⟨hev, ?_, rfl, rfl, ?_⟩
  · rw [hev]
    simp [List.length_take]
  · intro hbig
    rw [hev, List.drop_eq_nil_of_le (by omega), List.take_nil]

/-- Witness for C2 at a concrete input: three queued events, `since = 1`,
`limit = 1` returns exactly the middle record. -/
theorem get_events_window_witness :
    (get_events [mkEvent "a" (EventData.other []) 0 none,
        mkEvent "b" (EventData.other []) 1 none,
        mkEvent "c" (EventData.other []) 2 none] 1 1).events =
      (([mkEvent "a" (EventData.other []) 0 none,
        mkEvent "b" (EventData.other []) 1 none,
        mkEvent "c" (EventData.other []) 2 none] : List Event).drop 1).take 1 :=
  (get_events_window _ 1 1 (by omega) (by omega)).1

/-- A server state reached by 101 `add_event` calls from the initial empty
state. -/
def stHundredOne : ServerState :=
  runAddEvents ⟨[], []⟩
    ((List.range 101).map fun i => ⟨"test", EventData.other [], i, none⟩)

/-- Counterexample to C3: the `limit` query parameter of `GET /events` is
not clamped to 100 — it only defaults to 100 when absent — so a client that
supplies `limit = 101` against a queue of 101 records receives 101 events
in a single response. -/
theorem get_events_limit_not_clamped :
    100 < (get_events stHundredOne.event_queue 0 101).events.length := by
  have hq : stHundredOne.event_queue.length = 101 := by
    rw [stHundredOne, event_queue_runAddEvents, foldl_deque_append 1000 (by omega)]
    simp
  have hev : (get_events stHundredOne.event_queue 0 101).events =
      (stHundredOne.event_queue.drop (0 : Int).toNat).take
        ((0 : Int) + 101 - 0).toNat := by
    rw [get_events_events_def,
      pythonSlice_nonneg _ 0 (0 + 101) (by omega) (by omega)]
  rw [hev, List.length_take, List.length_drop, hq]
  omega

/-- C3 as amended. The `limit` parameter of `GET /events` is not clamped to
a maximum of 100: it only defaults to 100 when the client omits it.  The
number of returned events is bounded by the current queue size (itself at
most the capacity 1000) and, for non-negative `limit`, by `limit` itself —
so a client-supplied `limit` above 100 can yield more than 100 events. -/
theorem get_events_limit_default_only (q : List Event) (since limit : Int) :
    (0 ≤ limit → (get_events q since limit).events.length ≤ limit.toNat) ∧
    (get_events q since limit).events.length ≤ q.length ∧
    get_events q = get_events q 0 100 := by
  refine ⟨?_, length_pythonSlice_le q since (since + limit), rfl⟩
  intro hm
  exact length_pythonSlice_window_le q since limit hm

/-- Witness for the amended C3 at a concrete input: one queued event with
`limit = 5` yields at most five (here one) event. -/
theorem get_events_limit_default_only_witness :
    (get_events [mkEvent "a" (EventData.other []) 0 none] 0 5).events.length ≤
      (5 : Int).toNat :=
  (get_events_limit_default_only [mkEvent "a" (EventData.other []) 0 none]
    0 5).1 (by omega)

/-- C10. `GET /events` is total over all integer inputs: for every `since`
and `limit` (negative values included) it returns a well-formed response —
`count` is the queue size and `events` is the Python slice
`list(event_queue)[since : since + limit]` — and a negative `since` within
range selects records relative to the end of the queue rather than being
rejected or treated as zero. -/
theorem get_events_total_python_slice (q : List Event) (since limit : Int) :
    (get_events q since limit).count = q.length ∧
    (get_events q since limit).events = pythonSlice q since (since + limit) ∧
    (since < 0 → 0 ≤ (q.length : Int) + since →
      (q.length : Int) ≤ since + limit →
      (get_events q since limit).events =
        q.drop ((q.length : Int) + since).toNat) := by
  refine ⟨rfl, rfl, ?_⟩
  intro hneg hinrange hbig
  show pythonSlice q since (since + limit) = _
  unfold pythonSlice pythonSliceIndex
  rw [if_pos hneg, if_neg (by omega)]
  have hs : (max ((q.length : Int) + since) 0).toNat =
      ((q.length : Int) + since).toNat := by omega
  have ht : (min (since + limit) (q.length : Int)).toNat = q.length := by omega
  rw [hs, ht]
  show ((q.drop ((q.length : Int) + since).toNat).take
      (q.length - ((q.length : Int) + since).toNat)) = _
  apply List.take_of_length_le
  rw [List.length_drop]

/-- Witness for C10 at a concrete input: `since = -2` returns the last two
of three queued events. -/
theorem get_events_total_python_slice_witness :
    (get_events [mkEvent "a" (EventData.other []) 0 none,
        mkEvent "b" (EventData.other []) 1 none,
        mkEvent "c" (EventData.other []) 2 none] (-2) 100).events =
      ([mkEvent "a" (EventData.other []) 0 none,
        mkEvent "b" (EventData.other []) 1 none,
        mkEvent "c" (EventData.other []) 2 none] : List Event).drop 1 :=
  (get_events_total_python_slice _ (-2) 100).2.2 (by decide) (by decide) (by decide)

theorem lookup_map_update {β : Type} (l : List (String × β)) (k sid : String)
    (f : β → β) :
    (l.map (fun p => if p.1 = sid then (p.1, f p.2) else p)).lookup k =
      if k = sid then (l.lookup k).map f else l.lookup k := by
  induction l with
  | nil => split <;> rfl
  | cons p t ih =>
      obtain ⟨a, b⟩ := p
      by_cases h1 : a = sid <;> by_cases h2 : k = a
      · have hb : (k == a) = true := beq_iff_eq.mpr h2
        have hks : k = sid := h2.trans h1
        simp only [List.map_cons, if_pos h1, List.lookup_cons, hb, if_pos hks]
        rfl
      · have hb : (k == a) = false := beq_eq_false_iff_ne.mpr h2
        have hks : ¬ k = sid := fun hk => h2 (hk.trans h1.symm)
        simp only [List.map_cons, if_pos h1, List.lookup_cons, hb, ih,
          if_neg hks]
      · have hb : (k == a) = true := beq_iff_eq.mpr h2
        have hks : ¬ k = sid := fun hk => h1 (h2.symm.trans hk)
        simp only [List.map_cons, if_neg h1, List.lookup_cons, hb, if_neg hks]
      · have hb : (k == a) = false := beq_eq_false_iff_ne.mpr h2
        simp only [List.map_cons, if_neg h1, List.lookup_cons, hb, ih]

theorem lookup_updateSession (l : List (String × SessionData)) (k sid : String)
    (f : SessionData → SessionData) :
    (updateSession l sid f).lookup k =
      if k = sid then (l.lookup k).map f else l.lookup k :=
  lookup_map_update l k sid f

theorem lookup_map_value {β : Type} (l : List (String × β)) (k : String)
    (g : β → β) :
    (l.map (fun p => (p.1, g p.2))).lookup k = (l.lookup k).map g := by
  induction l with
  | nil => rfl
  | cons p t ih =>
      obtain ⟨a, b⟩ := p
      by_cases h : k = a
      · have hb : (k == a) = true := beq_iff_eq.mpr h
        simp only [List.map_cons, List.lookup_cons, hb]
        rfl
      · have hb : (k == a) = false := beq_eq_false_iff_ne.mpr h
        simp only [List.map_cons, List.lookup_cons, hb, ih]

theorem exists_lookup_of_mem_map_fst {β : Type} {l : List (String × β)}
    {k : String} (h : k ∈ l.map Prod.fst) : ∃ b, l.lookup k = some b := by
  induction l with
  | nil => simp at h
  | cons p t ih =>
      by_cases hk : p.1 = k
      · exact ⟨p.2, by simp [List.lookup, hk]⟩
      · have : k ∈ t.map Prod.fst := by
          rcases List.mem_map.mp h with ⟨x, hx, hfx⟩
          rcases List.mem_cons.mp hx with hx | hx
          · exact absurd (hx ▸ hfx) hk
          · exact List.mem_map.mpr ⟨x, hx, hfx⟩
        rcases ih this with ⟨b, hb⟩
        have hbeq : (k == p.1) = false :=
          beq_eq_false_iff_ne.mpr (fun hkp => hk hkp.symm)
        exact ⟨b, by simp [List.lookup, hbeq, hb]⟩

theorem display_text_empty_text (st : ServerState) (t0 : Option String)
    (sid0 : Option String) (dur0 : Option Int) (now : Nat)
    (ht : t0.getD "" = "") :
    display_text st ⟨t0, sid0, dur0⟩ now =
      (Except.error ⟨400, "Text is required"⟩, st, []) := by
  simp [display_text, ht]

theorem display_text_broadcast_empty (st : ServerState) (t0 : Option String)
    (sid0 : Option String) (dur0 : Option Int) (now : Nat)
    (ht : ¬ t0.getD "" = "") (hf : truthyStr sid0 = false)
    (he : st.session_states.isEmpty = true) :
    display_text st ⟨t0, sid0, dur0⟩ now =
      (Except.error ⟨404, "No active sessions"⟩, st, []) := by
  simp [display_text, ht, hf, he]

theorem display_text_broadcast_success (st : ServerState) (t0 : Option String)
    (sid0 : Option String) (dur0 : Option Int) (now : Nat)
    (ht : ¬ t0.getD "" = "") (hf : truthyStr sid0 = false)
    (he : st.session_states.isEmpty = false) :
    display_text st ⟨t0, sid0, dur0⟩ now =
      (Except.ok ⟨"displayed", st.session_states.map Prod.fst, t0.getD "", now⟩,
       ⟨st.session_states.map (fun p => (p.1,
          { p.2 with last_response := t0.getD "",
                     state := GlassesState.displaying })),
        deque_append 1000 st.event_queue
          (mkEvent "display_request"
            (EventData.displayRequest (t0.getD "")
              (st.session_states.map Prod.fst) (dur0.getD 5000)) now none)⟩,
       st.session_states.map (fun p => ⟨p.1, t0.getD "", dur0.getD 5000⟩)) := by
  simp [display_text, ht, hf, he, add_event, mkEvent]

theorem display_text_target_missing (st : ServerState) (t0 : Option String)
    (s : String) (dur0 : Option Int) (now : Nat)
    (ht : ¬ t0.getD "" = "") (hs : ¬ s = "")
    (hl : st.session_states.lookup s = none) :
    display_text st ⟨t0, some s, dur0⟩ now =
      (Except.error ⟨404, "No active sessions"⟩, st, []) := by
  simp [display_text, ht, truthyStr, hs, hl]

theorem display_text_target_success (st : ServerState) (t0 : Option String)
    (s : String) (dur0 : Option Int) (now : Nat) (s0 : SessionData)
    (ht : ¬ t0.getD "" = "") (hs : ¬ s = "")
    (hl : st.session_states.lookup s = some s0) :
    display_text st ⟨t0, some s, dur0⟩ now =
      (Except.ok ⟨"displayed", [s], t0.getD "", now⟩,
       ⟨updateSession st.session_states s
          (fun x => { x with last_response := t0.getD "",
                             state := GlassesState.displaying }),
        deque_append 1000 st.event_queue
          (mkEvent "display_request"
            (EventData.displayRequest (t0.getD "") [s] (dur0.getD 5000)) now none)⟩,
       [⟨s, t0.getD "", dur0.getD 5000⟩]) := by
  simp [display_text, ht, truthyStr, hs, hl, add_event, mkEvent]

/-- Counterexample to C4: a `POST /display` call that takes the 404 outcome
branch (here: non-empty text, no target, empty session registry) appends no
`display_request` record — the queue stays empty — because in main.py the
`add_event("display_request", ...)` line is only reached after the
`HTTPException` raises. -/
theorem display_request_not_recorded_on_failure :
    (display_text ⟨[], []⟩ ⟨some "hello", none, none⟩ 0).1 =
      Except.error ⟨404, "No active sessions"⟩ ∧
    (display_text ⟨[], []⟩ ⟨some "hello", none, none⟩ 0).2.1.event_queue = [] :=
  ⟨rfl, rfl⟩

/-- C4 as amended. A `POST /display` call appends a `display_request` Event
Record to the queue only on the success branch: when the call fails (400 or
404) the server state is completely unchanged, and when it succeeds exactly
one `display_request` record is appended, the set of displayed sessions is
non-empty, and each targeted session's `last_response` and status are
updated. -/
theorem display_request_recorded_only_on_success (st : ServerState)
    (request : DisplayRequest) (now : Nat) :
    (∀ e, (display_text st request now).1 = Except.error e →
      (display_text st request now).2.1 = st) ∧
    (∀ resp, (display_text st request now).1 = Except.ok resp →
      (display_text st request now).2.1.event_queue =
        deque_append 1000 st.event_queue
          (mkEvent "display_request"
            (EventData.displayRequest (request.text.getD "") resp.sessions
              (request.duration.getD 5000)) now none) ∧
      resp.sessions ≠ [] ∧
      ∀ sid ∈ resp.sessions, ∃ s0,
        st.session_states.lookup sid = some s0 ∧
        (display_text st request now).2.1.session_states.lookup sid =
          some { s0 with last_response := request.text.getD "",
                         state := GlassesState.displaying }) := by
  obtain ⟨t0, sid0, dur0⟩ := request
  by_cases ht : t0.getD "" = ""
  · rw [display_text_empty_text st t0 sid0 dur0 now ht]
    exact ⟨fun e _ => rfl, fun resp hresp => by simp at hresp⟩
  · by_cases htr : truthyStr sid0 = true
    · obtain ⟨s, rfl⟩ : ∃ s, sid0 = some s := by
        cases sid0 with
        | none => simp [truthyStr] at htr
        | some s => exact ⟨s, rfl⟩
      have hs : ¬ s = "" := by simpa [truthyStr] using htr
      cases hl : st.session_states.lookup s with
      | none =>
          rw [display_text_target_missing st t0 s dur0 now ht hs hl]
          exact ⟨fun e _ => rfl, fun resp hresp => by simp at hresp⟩
      | some s0 =>
          rw [display_text_target_success st t0 s dur0 now s0 ht hs hl]
          refine ⟨fun e he => by simp at he, fun resp hresp => ?_⟩
          simp only [] at hresp
          obtain rfl : (⟨"displayed", [s], t0.getD "", now⟩ : DisplayResponse)
              = resp := by
            exact (Except.ok.injEq _ _).mp hresp
          refine ⟨rfl, by simp, ?_⟩
          intro sid hsid
          rw [List.mem_singleton] at hsid
          subst hsid
          refine ⟨s0, hl, ?_⟩
          rw [lookup_updateSession]
          rw [if_pos rfl, hl]
          rfl
    · have hf : truthyStr sid0 = false := by
        cases h : truthyStr sid0
        · rfl
        · exact absurd h htr
      cases he : st.session_states.isEmpty with
      | true =>
          rw [display_text_broadcast_empty st t0 sid0 dur0 now ht hf he]
          exact ⟨fun e _ => rfl, fun resp hresp => by simp at hresp⟩
      | false =>
          rw [display_text_broadcast_success st t0 sid0 dur0 now ht hf he]
          refine ⟨fun e he2 => by simp at he2, fun resp hresp => ?_⟩
          simp only [] at hresp
          obtain rfl : (⟨"displayed", st.session_states.map Prod.fst,
              t0.getD "", now⟩ : DisplayResponse) = resp := by
            exact (Except.ok.injEq _ _).mp hresp
          refine ⟨rfl, ?_, ?_⟩
          · simp only [ne_eq, List.map_eq_nil_iff]
            intro hnil
            rw [hnil] at he
            simp at he
          · intro sid hsid
            rcases exists_lookup_of_mem_map_fst hsid with ⟨s0, hs0⟩
            refine ⟨s0, hs0, ?_⟩
            rw [lookup_map_value st.session_states sid
              (fun x => { x with last_response := t0.getD "",
                                 state := GlassesState.displaying }), hs0]
            rfl

/-- Witness for the amended C4 at a concrete input: a successful broadcast
to one session appends the single audit record. -/
theorem display_request_recorded_only_on_success_witness :
    (display_text ⟨[("s1", {})], []⟩ ⟨some "hi", none, none⟩ 0).2.1.event_queue =
      deque_append 1000 []
        (mkEvent "display_request" (EventData.displayRequest "hi" ["s1"] 5000)
          0 none) :=
  ((display_request_recorded_only_on_success ⟨[("s1", {})], []⟩
      ⟨some "hi", none, none⟩ 0).2 ⟨"displayed", ["s1"], "hi", 0⟩ rfl).1

/-- C5. With exactly two sessions in the registry and a `POST /display` of
`"hello"` with no target, the call succeeds, both sessions end with
`last_response = "hello"` and status `displaying`, and exactly one
`display_request` record is appended to the event queue. -/
theorem broadcast_display_two_sessions (k1 k2 : String) (d1 d2 : SessionData)
    (q : List Event) (now : Nat) (hne : k1 ≠ k2) (hq : q.length < 1000) :
    (display_text ⟨[(k1, d1), (k2, d2)], q⟩ ⟨some "hello", none, none⟩ now).1 =
      Except.ok ⟨"displayed", [k1, k2], "hello", now⟩ ∧
    (display_text ⟨[(k1, d1), (k2, d2)], q⟩ ⟨some "hello", none, none⟩
        now).2.1.session_states.lookup k1 =
      some { d1 with last_response := "hello",
                     state := GlassesState.displaying } ∧
    (display_text ⟨[(k1, d1), (k2, d2)], q⟩ ⟨some "hello", none, none⟩
        now).2.1.session_states.lookup k2 =
      some { d2 with last_response := "hello",
                     state := GlassesState.displaying } ∧
    (display_text ⟨[(k1, d1), (k2, d2)], q⟩ ⟨some "hello", none, none⟩
        now).2.1.event_queue =
      q ++ [mkEvent "display_request"
        (EventData.displayRequest "hello" [k1, k2] 5000) now none] := by
  have hL := display_text_broadcast_success ⟨[(k1, d1), (k2, d2)], q⟩
    (some "hello") none none now (by simp) rfl rfl
  rw [hL]
  have hb2 : (k2 == k1) = false := beq_eq_false_iff_ne.mpr (Ne.symm hne)
  refine ⟨rfl, ?_, ?_, ?_⟩
  · simp [List.lookup_cons]
  · simp [List.lookup_cons, hb2]
  · exact deque_append_not_full 1000 q _ hq

/-- Witness for C5 at a concrete input: two default sessions, empty queue. -/
theorem broadcast_display_two_sessions_witness :
    (display_text ⟨[("s1", {}), ("s2", {})], []⟩ ⟨some "hello", none, none⟩
        7).1 = Except.ok ⟨"displayed", ["s1", "s2"], "hello", 7⟩ ∧
    (display_text ⟨[("s1", {}), ("s2", {})], []⟩ ⟨some "hello", none, none⟩
        7).2.1.session_states.lookup "s1" =
      some { ({} : SessionData) with last_response := "hello",
                                     state := GlassesState.displaying } ∧
    (display_text ⟨[("s1", {}), ("s2", {})], []⟩ ⟨some "hello", none, none⟩
        7).2.1.session_states.lookup "s2" =
      some { ({} : SessionData) with last_response := "hello",
                                     state := GlassesState.displaying } ∧
    (display_text ⟨[("s1", {}), ("s2", {})], []⟩ ⟨some "hello", none, none⟩
        7).2.1.event_queue =
      [] ++ [mkEvent "display_request"
        (EventData.displayRequest "hello" ["s1", "s2"] 5000) 7 none] :=
  broadcast_display_two_sessions "s1" "s2" {} {} [] 7 (by decide) (by decide)

/-- C6. A `POST /display` with a non-empty target session id absent from
the registry (and non-empty text) fails with HTTP 404 and performs zero
mutations: the server state is returned unchanged and no device display
call is made. -/
theorem display_target_not_found (st : ServerState) (ghost : String)
    (t0 : Option String) (dur0 : Option Int) (now : Nat)
    (hg : ¬ ghost = "") (ht : ¬ t0.getD "" = "")
    (habs : st.session_states.lookup ghost = none) :
    display_text st ⟨t0, some ghost, dur0⟩ now =
      (Except.error ⟨404, "No active sessions"⟩, st, []) :=
  display_text_target_missing st t0 ghost dur0 now ht hg habs

/-- Witness for C6 at a concrete input: targeting `"ghost"` against a
registry holding only `"s1"`. -/
theorem display_target_not_found_witness :
    display_text ⟨[("s1", {})], []⟩ ⟨some "hello", some "ghost", none⟩ 0 =
      (Except.error ⟨404, "No active sessions"⟩, ⟨[("s1", {})], []⟩, []) :=
  display_target_not_found ⟨[("s1", {})], []⟩ "ghost" (some "hello") none 0
    (by decide) (by decide) (by decide)

/-- C7. A `POST /display` whose body has no `text` field or an empty one
fails with HTTP 400 and mutates nothing: the server state is returned
unchanged, no record is queued and no device display call is made. -/
theorem display_empty_text_rejected (st : ServerState) (t0 : Option String)
    (sid0 : Option String) (dur0 : Option Int) (now : Nat)
    (h : t0 = none ∨ t0 = some "") :
    display_text st ⟨t0, sid0, dur0⟩ now =
      (Except.error ⟨400, "Text is required"⟩, st, []) := by
  rcases h with h | h <;> subst h <;>
    exact display_text_empty_text st _ sid0 dur0 now rfl

/-- Witness for C7 at a concrete input: a request with no text field. -/
theorem display_empty_text_rejected_witness :
    display_text ⟨[("s1", {})], []⟩ ⟨none, none, none⟩ 3 =
      (Except.error ⟨400, "Text is required"⟩, ⟨[("s1", {})], []⟩, []) :=
  display_empty_text_rejected ⟨[("s1", {})], []⟩ none none none 3 (Or.inl rfl)

/-- C8. Handling a final (`is_final = true`) voice transcription for a
registered session that is in the `LISTENING` state moves it to
`PROCESSING` and synchronously back to `LISTENING` within the same handling
step (the trace of states assigned is exactly
`[PROCESSING, LISTENING]`), makes exactly one device display call carrying
the truncated preview of the accumulated transcript, and clears
`current_transcript` to the empty string. -/
theorem voice_final_processing_cycle (st : ServerState) (sid : String)
    (s : SessionData) (text : String) (now : Nat)
    (hs : st.session_states.lookup sid = some s)
    (hstate : s.state = GlassesState.listening) :
    (∃ s2, (handle_transcription st sid text true now).1.session_states.lookup
        sid = some s2 ∧ s2.current_transcript = "" ∧
        s2.state = GlassesState.listening) ∧
    (handle_transcription st sid text true now).2.1 =
      [⟨sid, processingPreview ((s.current_transcript ++ " " ++ text).trim),
        2000⟩] ∧
    (handle_transcription st sid text true now).2.2 =
      [GlassesState.processing, GlassesState.listening] := by
  have hbuf : (updateSession st.session_states sid
      (fun x => { x with current_transcript :=
          s.current_transcript ++ " " ++ text })).lookup sid =
      some { s with current_transcript :=
          s.current_transcript ++ " " ++ text } := by
    rw [lookup_updateSession, if_pos rfl, hs]
    rfl
  refine ⟨⟨{ s with
      current_transcript := "",
      state := GlassesState.listening,
      event_history := s.event_history ++
        [mkEvent "voice_input"
          (EventData.voiceInput
            ((s.current_transcript ++ " " ++ text).trim) sid true)
          now (some sid)] }, ?_, rfl, rfl⟩, ?_, ?_⟩
  · simp only [handle_transcription, hs, add_event, mkEvent, hbuf]
    simp [lookup_updateSession]
    exact ⟨s, hs, rfl, rfl⟩
  · simp [handle_transcription, hs]
  · simp [handle_transcription, hs]

/-- Witness for C8 at a concrete input: a session with buffered transcript
text " par" receiving the final chunk "tial". -/
theorem voice_final_processing_cycle_witness :
    (∃ s2, (handle_transcription
        ⟨[("s1", { current_transcript := " par" })], []⟩ "s1" "tial" true
        3).1.session_states.lookup "s1" = some s2 ∧
      s2.current_transcript = "" ∧ s2.state = GlassesState.listening) ∧
    (handle_transcription ⟨[("s1", { current_transcript := " par" })], []⟩
        "s1" "tial" true 3).2.1 =
      [⟨"s1", processingPreview ((" par" ++ " " ++ "tial").trim), 2000⟩] ∧
    (handle_transcription ⟨[("s1", { current_transcript := " par" })], []⟩
        "s1" "tial" true 3).2.2 =
      [GlassesState.processing, GlassesState.listening] :=
  voice_final_processing_cycle ⟨[("s1", { current_transcript := " par" })], []⟩
    "s1" { current_transcript := " par" } "tial" 3 rfl rfl

/-- C9 (spec-modelled). The `POST /sessions/SESSION_ID/heartbeat` endpoint:
for an existing session it updates the session's `last_activity` timestamp
to the current time and returns the body `status: updated`; for an unknown
session it fails with HTTP 404. -/
theorem heartbeat_endpoint (registry : HeartbeatRegistry) (sid : String)
    (now : Nat) :
    (∀ t0, List.lookup sid registry = some t0 →
      ∃ reg2, heartbeat registry sid now = Except.ok ("updated", reg2) ∧
        List.lookup sid reg2 = some now) ∧
    (List.lookup sid registry = none →
      heartbeat registry sid now = Except.error ⟨404, "Session not found"⟩) := by
  constructor
  · intro t0 h
    have hh : heartbeat registry sid now =
        Except.ok ("updated",
          registry.map (fun p => if p.1 = sid then (p.1, now) else p)) := by
      unfold heartbeat
      rw [h]
    refine ⟨_, hh, ?_⟩
    rw [lookup_map_update registry sid sid (fun _ => now), if_pos rfl, h]
    rfl
  · intro h
    unfold heartbeat
    rw [h]

/-- Witness for C9 at a concrete input: a registry holding one session. -/
theorem heartbeat_endpoint_witness :
    ∃ reg2, heartbeat [("s1", 5)] "s1" 9 = Except.ok ("updated", reg2) ∧
      List.lookup "s1" reg2 = some 9 :=
  (heartbeat_endpoint [("s1", 5)] "s1" 9).1 5 rfl

end PhoneGPT
